import Mathlib

/-!
Verification of the FC25 SBC solver core against its natural-language
specification.

The definitions below are a shallow embedding of the JavaScript source:

* `PostgresFUTGGDataSource` (src/src/postgres-futgg-integration.js):
  the price cache (`getCachedPrice` / `setCachedPrice`), the single-id
  price fetch (`getPlayerPriceFromAPI`), the batched refresh
  (`updatePricesForPlayers`), candidate filtering
  (`playerMatchesCriteria` / `findPlayersByCriteria`) and the per-segment
  cheapest-squad selection (`getCheapestSquadForSegment`).
* `PostgresSBCSolver.solveSBCSegment` (same file) and the per-segment
  orchestration loop of `app.get(shortPath)` in src/server.js
  (`runSegments` for the concrete solver, `solveSegmentsLoop` for the
  loop with its per-segment try/catch, generic in the solver).
* `SBCSolver` (third variant in src/src/postgres-futgg-integration.js):
  `optimizeSquad`, `advancedOptimization`, `validateSquad`,
  `squadMeetsRequirement`, `calculateChemistry`,
  `calculatePlayerChemistry`, `getPlayerLinks`, `calculateSquadRating`,
  `countUniqueLeagues`, `countUniqueNations`.

Network effects are made explicit: every price fetch is an oracle value
of type `FetchOutcome` passed in as an argument, and the mutable
`priceCache` / `playersMap` state is threaded explicitly through a
`DataSource` value.  JavaScript number fields that the code tests for
truthiness (`criteria.minRating && ...`, `requirements.playersNeeded || 11`,
`if (cached) ...`) are modelled as `Nat` with `0` playing the role of
absent/falsy, exactly matching the JS semantics for these non-negative
integer quantities.  Intra-batch concurrency of `Promise.all` is
serialized (the per-id computations only share the cache, and every
claim below is insensitive to that interleaving).
-/

/-- A candidate player record, as produced by `loadPlayersFromDatabase`
(fields irrelevant to the claims - image url, slug, timestamps - are
omitted). -/
structure Player where
  id : Nat
  name : String
  rating : Nat
  position : String
  altPositions : List String
  nation : String
  league : String
  club : String
  version : String
  price : Nat
deriving DecidableEq, Repr

/-- SBC segment criteria as consumed by `playerMatchesCriteria` and
`getCheapestSquadForSegment`.  Numeric fields use `0` for "absent"
(the JS code tests them for truthiness, and `0` is falsy). -/
structure Criteria where
  minRating : Nat := 0
  maxRating : Nat := 0
  maxPrice : Nat := 0
  minPrice : Nat := 0
  positions : Option (List String) := none
  clubs : Option (List String) := none
  nations : Option (List String) := none
  leagues : Option (List String) := none
  versions : Option (List String) := none
  playersNeeded : Nat := 0
  needsFreshPrices : Bool := false
  priority : String := ""
deriving DecidableEq, Repr

/-- `playerHasPosition`: the player's primary position together with the
alternative positions, tested against the requested position list. -/
def playerHasPosition (p : Player) (positions : List String) : Bool :=
  positions.any (fun pos => (p.position :: p.altPositions).contains pos)

/-- `playerMatchesCriteria`: the cascade of early-return checks, in
source order. -/
def playerMatchesCriteria (p : Player) (c : Criteria) : Bool :=
  if c.minRating ≠ 0 && p.rating < c.minRating then false
  else if c.maxRating ≠ 0 && p.rating > c.maxRating then false
  else if c.maxPrice ≠ 0 && p.price > c.maxPrice then false
  else if c.minPrice ≠ 0 && p.price < c.minPrice then false
  else if c.positions.isSome && !(playerHasPosition p (c.positions.getD [])) then false
  else if c.clubs.isSome && !((c.clubs.getD []).contains p.club) then false
  else if c.nations.isSome && !((c.nations.getD []).contains p.nation) then false
  else if c.leagues.isSome && !((c.leagues.getD []).contains p.league) then false
  else if c.versions.isSome && !((c.versions.getD []).contains p.version) then false
  else true

/-- The sort comparator of `findPlayersByCriteria`: price ascending,
ties broken by rating descending. -/
def priceRatingLe (a b : Player) : Bool :=
  a.price < b.price || (a.price == b.price && b.rating ≤ a.rating)

/-- Insertion step for the stable sort modelling `Array.prototype.sort`
with the price/rating comparator. -/
def insertByPrice (x : Player) : List Player → List Player
  | [] => [x]
  | y :: ys => if priceRatingLe x y then x :: y :: ys else y :: insertByPrice x ys

/-- Stable sort by price ascending / rating descending. -/
def sortByPriceRating (l : List Player) : List Player :=
  l.foldr insertByPrice []

/-- A price-cache entry: value plus the write timestamp (`Date.now()`). -/
structure CacheEntry where
  price : Nat
  timestamp : Nat
deriving DecidableEq, Repr

/-- The mutable state of `PostgresFUTGGDataSource`: the TTL price cache
and the in-memory players map (iteration order preserved as a list;
the map is keyed by card id). -/
structure DataSource where
  priceCache : List (String × CacheEntry) := []
  cacheExpiry : Nat := 600000
  playersMap : List Player := []
deriving DecidableEq, Repr

/-- Cache key for a card id (`price_<cardId>` in the source). -/
def priceKey (cardId : Nat) : String :=
  "price_" ++ toString cardId

/-- `getCachedPrice`: returns the stored price when the entry exists and
its age is below the TTL, else `null`.  (Nat subtraction truncates for
`now < timestamp`, which like the JS negative difference still counts
as fresh.) -/
def getCachedPrice (ds : DataSource) (now : Nat) (key : String) : Option Nat :=
  match ds.priceCache.lookup key with
  | some c => if now - c.timestamp < ds.cacheExpiry then some c.price else none
  | none => none

/-- `Map.set` on an association list: overwrite in place if the key is
present, append otherwise. -/
def setAssoc (l : List (String × CacheEntry)) (key : String) (v : CacheEntry) :
    List (String × CacheEntry) :=
  if (l.lookup key).isSome then
    l.map (fun kv => if kv.1 == key then (key, v) else kv)
  else l ++ [(key, v)]

/-- `setCachedPrice`: store the price with the current timestamp. -/
def setCachedPrice (ds : DataSource) (now : Nat) (key : String) (price : Nat) :
    DataSource :=
  { ds with priceCache := setAssoc ds.priceCache key ⟨price, now⟩ }

/-- The fields the FUT.GG response parser looks at; `0` doubles for an
absent field, matching that the source tests each field for
truthiness. -/
structure PriceFields where
  buy : Nat := 0
  buyPrice : Nat := 0
  price : Nat := 0
  current_price : Nat := 0
deriving DecidableEq, Repr

/-- A parsed price response: a JSON object or a JSON array of objects. -/
inductive PriceData where
  | obj (f : PriceFields)
  | arr (entries : List PriceFields)
deriving DecidableEq, Repr

/-- `extractPriceFromResponse`: first truthy field among
buy / buyPrice / price / current_price; for arrays the first element's
`buy || price || 0`; else `0`. -/
def extractPriceFromResponse : PriceData → Nat
  | .obj f =>
      if f.buy ≠ 0 then f.buy
      else if f.buyPrice ≠ 0 then f.buyPrice
      else if f.price ≠ 0 then f.price
      else if f.current_price ≠ 0 then f.current_price
      else 0
  | .arr [] => 0
  | .arr (latest :: _) => if latest.buy ≠ 0 then latest.buy else latest.price

/-- The outcome of one outbound price fetch, supplied as an oracle. -/
inductive FetchOutcome where
  | ok (data : PriceData)
  | notFound
  | httpError (status : Nat)
  | networkError (msg : String)
deriving DecidableEq, Repr

/-- Last-known fallback used in the catch-block of
`getPlayerPriceFromAPI`: the stored player's price, or `0` when the id
is unknown (`player?.price || 0`). -/
def fallbackPrice (ds : DataSource) (cardId : Nat) : Nat :=
  match ds.playersMap.find? (fun p => p.id == cardId) with
  | some p => p.price
  | none => 0

/-- `getPlayerPriceFromAPI`: serve a truthy cached price without
fetching; otherwise fetch - 404 yields `0`, a successful response is
parsed and cached, and any error is recovered to the last-known stored
price (or `0`).  Returns the price together with the updated state. -/
def getPlayerPriceFromAPI (ds : DataSource) (now : Nat) (fetch : FetchOutcome)
    (cardId : Nat) : Nat × DataSource :=
  let key := priceKey cardId
  match getCachedPrice ds now key with
  | some c =>
      if c ≠ 0 then (c, ds)
      else
        match fetch with
        | .notFound => (0, ds)
        | .httpError _ => (fallbackPrice ds cardId, ds)
        | .networkError _ => (fallbackPrice ds cardId, ds)
        | .ok data =>
            let price := extractPriceFromResponse data
            (price, setCachedPrice ds now key price)
  | none =>
      match fetch with
      | .notFound => (0, ds)
      | .httpError _ => (fallbackPrice ds cardId, ds)
      | .networkError _ => (fallbackPrice ds cardId, ds)
      | .ok data =>
          let price := extractPriceFromResponse data
          (price, setCachedPrice ds now key price)

/-- `createBatches`: fixed-size chunks of the id list.  (The source's
`for` loop would never terminate on a zero batch size; the callers pass
5 or 10, and the zero case is mapped to the empty batch list.) -/
def createBatches (l : List Nat) (batchSize : Nat) : List (List Nat) :=
  if _h : batchSize = 0 then [] else
  match l with
  | [] => []
  | x :: xs => ((x :: xs).take batchSize) :: createBatches ((x :: xs).drop batchSize) batchSize
termination_by l.length
decreasing_by
  simp only [List.length_drop, List.length_cons]
  omega

/-- Write one refreshed price back into the players map
(`playersMap.get(cardId).price = price` guarded by `has`). -/
def updatePlayerPrice (ds : DataSource) (cardId : Nat) (price : Nat) : DataSource :=
  { ds with playersMap :=
      ds.playersMap.map (fun p => if p.id == cardId then { p with price := price } else p) }

/-- `Map.set` for the `results` map of `updatePricesForPlayers`. -/
def setResult (l : List (Nat × Nat)) (cardId : Nat) (price : Nat) : List (Nat × Nat) :=
  if (l.lookup cardId).isSome then
    l.map (fun kv => if kv.1 == cardId then (cardId, price) else kv)
  else l ++ [(cardId, price)]

/-- Process one batch of `updatePricesForPlayers`: per id, fetch the
price (the per-id try/catch can never fire, since
`getPlayerPriceFromAPI` recovers every error itself) and write the
result into both the results map and the players map. -/
def processBatch (fetch : Nat → FetchOutcome) (now : Nat) :
    List Nat → (List (Nat × Nat) × DataSource) → List (Nat × Nat) × DataSource
  | [], acc => acc
  | cardId :: rest, (results, ds) =>
      let (price, ds') := getPlayerPriceFromAPI ds now (fetch cardId) cardId
      processBatch fetch now rest (setResult results cardId price, updatePlayerPrice ds' cardId price)

/-- `updatePricesForPlayers`: the ids are processed in batches of
`maxConcurrent`; every id gets an entry in the returned results map and
the corresponding players-map entry is overwritten. -/
def updatePricesForPlayers (ds : DataSource) (now : Nat) (fetch : Nat → FetchOutcome)
    (cardIds : List Nat) (maxConcurrent : Nat) : List (Nat × Nat) × DataSource :=
  (createBatches cardIds maxConcurrent).foldl
    (fun acc batch => processBatch fetch now batch acc) ([], ds)

/-- `findPlayersByCriteria`: filter the players map, then sort by price
ascending / rating descending.  (The source pushes shallow copies; in
the pure embedding a copy is the value itself.) -/
def findPlayersByCriteria (ds : DataSource) (c : Criteria) : List Player :=
  sortByPriceRating (ds.playersMap.filter (fun p => playerMatchesCriteria p c))

/-- `requirements.playersNeeded || 11`. -/
def playersNeededOf (c : Criteria) : Nat :=
  if c.playersNeeded = 0 then 11 else c.playersNeeded

/-- The value returned by `getCheapestSquadForSegment`. -/
structure SegmentSquad where
  players : List Player
  totalCost : Nat
  alternatives : List Player
deriving DecidableEq, Repr

/-- `getCheapestSquadForSegment`: filter and sort the eligible players;
optionally refresh prices of the top 50 and re-sort (the refresh
mutates the players map, while the already-copied eligible records keep
their prices, as in the source); then take the first `playersNeeded`
players and sum their prices. -/
def getCheapestSquadForSegment (ds : DataSource) (now : Nat)
    (fetch : Nat → FetchOutcome) (reqs : Criteria) : SegmentSquad × DataSource :=
  let eligiblePlayers := findPlayersByCriteria ds reqs
  if eligiblePlayers.isEmpty then (⟨[], 0, []⟩, ds)
  else
    let st :=
      if reqs.needsFreshPrices then
        let topCandidates := (eligiblePlayers.take 50).map Player.id
        let (_, ds') := updatePricesForPlayers ds now fetch topCandidates 5
        (sortByPriceRating eligiblePlayers, ds')
      else (eligiblePlayers, ds)
    let playersNeeded := playersNeededOf reqs
    let selectedPlayers := st.1.take playersNeeded
    let totalCost := selectedPlayers.foldl (fun sum p => sum + p.price) 0
    (⟨selectedPlayers, totalCost, (st.1.drop playersNeeded).take 10⟩, st.2)

/-- The value returned by `solveSBCSegment` (formatted requirement
strings omitted). -/
structure SegmentSolution where
  segmentName : String
  totalCost : Nat
  cheapestPlayers : List Player
  alternatives : List Player
deriving DecidableEq, Repr

/-- `PostgresSBCSolver.solveSBCSegment`: set `needsFreshPrices` from the
priority, delegate to `getCheapestSquadForSegment`, and repackage. -/
def solveSBCSegment (ds : DataSource) (now : Nat) (fetch : Nat → FetchOutcome)
    (segmentName : String) (reqs : Criteria) : SegmentSolution × DataSource :=
  let reqs' := { reqs with needsFreshPrices := reqs.priority == "high" }
  let (solution, ds') := getCheapestSquadForSegment ds now fetch reqs'
  (⟨segmentName, solution.totalCost, solution.players, solution.alternatives⟩, ds')

/-- One declared segment of an SBC in the server's configuration. -/
structure SegmentDef where
  name : String
  requirements : Criteria
deriving DecidableEq, Repr

/-- One entry of `sbcSolution.segments` in the server's response. -/
structure SegmentEntry where
  segmentName : String
  totalCost : Nat
  cheapestPlayers : List Player
  error : Option String
deriving DecidableEq, Repr

/-- The per-segment loop of the `/api/sbc/solutions` route with the
concrete solver: each segment is solved over the *current* shared state
(the only state change between segments is the price refresh - assigned
ids are never removed), and its entry is appended. -/
def runSegments (ds : DataSource) (now : Nat) (fetch : Nat → FetchOutcome) :
    List SegmentDef → List SegmentEntry × DataSource
  | [] => ([], ds)
  | seg :: rest =>
      let (solution, ds') := solveSBCSegment ds now fetch seg.name seg.requirements
      let (entries, ds'') := runSegments ds' now fetch rest
      (⟨seg.name, solution.totalCost, solution.cheapestPlayers, none⟩ :: entries, ds'')

/-- The fallback entry written by the per-segment catch-block. -/
def errorEntry (name : String) : SegmentEntry :=
  ⟨name, 0, [], some "Could not solve segment"⟩

/-- The same per-segment loop, generic in the solver so that the
try/catch is visible: a solver exception for one segment produces that
segment's fallback entry and the loop continues with the next
segment. -/
def solveSegmentsLoop (solver : SegmentDef → Except String SegmentSolution)
    (segments : List SegmentDef) : List SegmentEntry :=
  segments.map (fun seg =>
    match solver seg with
    | .ok solution => ⟨seg.name, solution.totalCost, solution.cheapestPlayers, none⟩
    | .error _ => errorEntry seg.name)

/-- A squad-level requirement as consumed by `squadMeetsRequirement`;
`unhandled` stands for every requirement type the switch has no case
for (the `default: return true` branch). -/
inductive Requirement where
  | minTeamRating (value : Nat)
  | minChemistry (value : Nat)
  | exactLeagues (value : Nat)
  | minLeagues (value : Nat)
  | exactNations (value : Nat)
  | unhandled
deriving DecidableEq, Repr

/-- The strong/weak link tally of `getPlayerLinks`. -/
structure Links where
  strong : Nat
  weak : Nat
deriving DecidableEq, Repr

/-- `getPlayerLinks`: count teammates (same-id entries skipped) sharing
nation or club as strong links, otherwise sharing a league as weak
links. -/
def getPlayerLinks (player : Player) (squad : List Player) : Links :=
  squad.foldl
    (fun links teammate =>
      if teammate.id = player.id then links
      else if player.nation = teammate.nation || player.club = teammate.club then
        ⟨links.strong + 1, links.weak⟩
      else if player.league = teammate.league then
        ⟨links.strong, links.weak + 1⟩
      else links)
    ⟨0, 0⟩

/-- `calculatePlayerChemistry`: base 4 plus 2 per strong link plus 1 per
weak link, capped at 10. -/
def calculatePlayerChemistry (player : Player) (squad : List Player) : Nat :=
  let links := getPlayerLinks player squad
  min (4 + links.strong * 2 + links.weak * 1) 10

/-- `calculateChemistry`: sum of the per-player chemistry over the
squad, capped at 100. -/
def calculateChemistry (squad : List Player) : Nat :=
  min (squad.foldl (fun chemistry player => chemistry + calculatePlayerChemistry player squad) 0) 100

/-- `calculateSquadRating`: `0` for the empty squad, otherwise
`Math.round` of the mean rating.  `Math.round x = ⌊x + 1/2⌋`, which is
Mathlib's `round` on `ℚ`. -/
def calculateSquadRating (squad : List Player) : Int :=
  if squad.length = 0 then 0
  else round ((((squad.map Player.rating).sum : ℚ)) / (squad.length : ℚ))

/-- `countUniqueLeagues`: size of the set of league values. -/
def countUniqueLeagues (squad : List Player) : Nat :=
  ((squad.map Player.league).dedup).length

/-- `countUniqueNations`: size of the set of nation values. -/
def countUniqueNations (squad : List Player) : Nat :=
  ((squad.map Player.nation).dedup).length

/-- `squadMeetsRequirement`: the switch over requirement types, with
`default: return true`. -/
def squadMeetsRequirement (squad : List Player) : Requirement → Bool
  | .minTeamRating value => calculateSquadRating squad ≥ (value : Int)
  | .minChemistry value => calculateChemistry squad ≥ value
  | .exactLeagues value => countUniqueLeagues squad = value
  | .minLeagues value => countUniqueLeagues squad ≥ value
  | .exactNations value => countUniqueNations squad = value
  | .unhandled => true

/-- `validateSquad`: every requirement must hold. -/
def validateSquad (squad : List Player) (requirements : List Requirement) : Bool :=
  requirements.all (squadMeetsRequirement squad)

/-- The fixed 11-slot formation of `optimizeSquad`. -/
def formationPositions : List String :=
  ["GK", "RB", "CB", "CB", "LB", "CDM", "CM", "CM", "RW", "ST", "LW"]

/-- The result of `optimizeSquad`. -/
structure OptimizedSquad where
  players : List Player
  totalCost : Nat
deriving DecidableEq, Repr

/-- `advancedOptimization`: the unimplemented placeholder - it logs and
returns `null` for every input. -/
def advancedOptimization (_eligiblePlayers : List Player)
    (_requirements : List Requirement) : Option OptimizedSquad :=
  none

/-- One slot step of `optimizeSquad`: filter the eligible players that
can play the position (primary or alternative), skip the slot if none
(`continue`), otherwise push the first (cheapest) one and add its
price.  Already-assigned players are *not* excluded. -/
def optimizeSlot (eligiblePlayers : List Player) (acc : List Player × Nat)
    (position : String) : List Player × Nat :=
  let positionPlayers := eligiblePlayers.filter
    (fun p => p.position == position || p.altPositions.contains position)
  match positionPlayers with
  | [] => acc
  | selectedPlayer :: _ => (acc.1 ++ [selectedPlayer], acc.2 + selectedPlayer.price)

/-- `optimizeSquad`: one greedy pass over the fixed formation, then
validation; on validation failure fall through to
`advancedOptimization` (which always returns `null`). -/
def optimizeSquad (eligiblePlayers : List Player) (requirements : List Requirement) :
    Option OptimizedSquad :=
  let built := formationPositions.foldl (optimizeSlot eligiblePlayers) ([], 0)
  if validateSquad built.1 requirements then some ⟨built.1, built.2⟩
  else advancedOptimization eligiblePlayers requirements

/-! Concrete inputs used by the theorems below. -/

/-- Build a simple candidate with no alternative positions. -/
def mkPlayer (id rating : Nat) (position nation league club : String) (price : Nat) : Player :=
  ⟨id, "P" ++ toString id, rating, position, [], nation, league, club, "Gold", price⟩

/-- A pool consisting of one centre-back only. -/
def soloDefender : Player := mkPlayer 7 80 "CB" "France" "Ligue 1" "PSG" 100

/-- Two strikers sharing a pool across two segments. -/
def sharedPoolPlayerA : Player := mkPlayer 1 84 "ST" "Argentina" "Liga Pro" "Club One" 100

/-- Second striker of the shared pool. -/
def sharedPoolPlayerB : Player := mkPlayer 2 84 "ST" "Brazil" "Liga Pro" "Club Two" 200

/-- Data-source state holding the shared two-player pool. -/
def sharedDS : DataSource :=
  { priceCache := [], cacheExpiry := 600000, playersMap := [sharedPoolPlayerA, sharedPoolPlayerB] }

/-- First declared segment over the shared pool (two players needed). -/
def segOne : SegmentDef := ⟨"Segment One", { playersNeeded := 2 }⟩

/-- Second declared segment over the shared pool (two players needed). -/
def segTwo : SegmentDef := ⟨"Segment Two", { playersNeeded := 2 }⟩

/-- A low-rated centre-back whose greedy squad cannot reach rating 90. -/
def lowRatedDefender : Player := mkPlayer 9 80 "CB" "Germany" "Bundesliga" "FCB" 150

/-- A requirement list the greedy squad of `lowRatedDefender` fails. -/
def strictRequirements : List Requirement := [.minTeamRating 90]

/-- A single eligible player for an 11-player segment. -/
def lonePoolPlayer : Player := mkPlayer 3 85 "ST" "Brazil" "Saudi League" "Al Hilal" 500

/-- Data-source state holding only `lonePoolPlayer`. -/
def lonePoolDS : DataSource :=
  { priceCache := [], cacheExpiry := 600000, playersMap := [lonePoolPlayer] }

/-- An 11-player segment requirement with no other constraints. -/
def elevenSlotCriteria : Criteria := { playersNeeded := 11 }

/-- A segment solver that throws on the segment named "bad" and
succeeds elsewhere. -/
def failingSolver : SegmentDef → Except String SegmentSolution :=
  fun seg => if seg.name == "bad" then .error "boom" else .ok ⟨seg.name, 0, [], []⟩

/-- A segment the `failingSolver` solves. -/
def segGood : SegmentDef := ⟨"good", {}⟩

/-- The segment the `failingSolver` throws on. -/
def segBad : SegmentDef := ⟨"bad", {}⟩

/-- Data-source state with three stored players, used to exercise the
batched refresh under a failing price source. -/
def priceFailDS : DataSource :=
  { priceCache := [],
    cacheExpiry := 600000,
    playersMap := [mkPlayer 11 86 "ST" "England" "Premier League" "MCI" 3000,
                   mkPlayer 12 85 "CM" "England" "Premier League" "ARS" 1500,
                   mkPlayer 13 84 "CB" "England" "Premier League" "LIV" 900] }

/-- Two players sharing only their nation. -/
def chemNationA : Player := mkPlayer 21 85 "ST" "Brazil" "League A" "Club A" 100

/-- Second player of the same-nation pair. -/
def chemNationB : Player := mkPlayer 22 85 "CM" "Brazil" "League B" "Club B" 100

/-- Two players sharing only their league. -/
def chemLeagueA : Player := mkPlayer 23 85 "ST" "France" "League C" "Club C" 100

/-- Second player of the same-league pair. -/
def chemLeagueB : Player := mkPlayer 24 85 "CM" "Spain" "League C" "Club D" 100

/-- An 83-rated player for the rating-mean witness. -/
def ratingP83 : Player := mkPlayer 31 83 "GK" "Italy" "Serie A" "JUV" 100

/-- An 84-rated player for the rating-mean witness. -/
def ratingP84 : Player := mkPlayer 32 84 "ST" "Italy" "Serie A" "NAP" 100

/-- Cache state with a fresh zero-price entry for id 5 and a fresh
positive entry for id 6. -/
def zeroCachedDS : DataSource :=
  { priceCache := [(priceKey 5, ⟨0, 0⟩), (priceKey 6, ⟨777, 0⟩)],
    cacheExpiry := 600000,
    playersMap := [] }

/-- A successful price response carrying a buy price of 450. -/
def okResponse : PriceData := .obj { buy := 450 }

/-! Helper lemmas shared by the claim theorems. -/

/-- The cost accumulator of `getCheapestSquadForSegment` computes the sum
of the selected prices. -/
theorem foldl_price_sum (l : List Player) (n : Nat) :
    l.foldl (fun sum p => sum + p.price) n = n + (l.map Player.price).sum := by
  induction l generalizing n with
  | nil => simp
  | cons p t ih => simp [ih, Nat.add_assoc]

/-- Executable closed form of the rounded mean rating: `Math.round` of
`sum/len` equals `(2*sum + len) / (2*len)` in natural-number division. -/
theorem squadRating_closed_form (squad : List Player) (h : squad ≠ []) :
    calculateSquadRating squad
      = ((2 * (squad.map Player.rating).sum + squad.length) / (2 * squad.length) : ℕ) := by
  have hl : squad.length ≠ 0 := by simpa using h
  unfold calculateSquadRating
  rw [if_neg hl, round_eq]
  have hlq : ((squad.length : ℚ)) ≠ 0 := by exact_mod_cast hl
  have key : (((squad.map Player.rating).sum : ℚ)) / (squad.length : ℚ) + 1 / 2
      = ((2 * (squad.map Player.rating).sum + squad.length : ℕ) : ℚ)
        / ((2 * squad.length : ℕ) : ℚ) := by
    push_cast
    field_simp
    ring
  rw [key, ← Int.natCast_floor_eq_floor (by positivity), Nat.floor_div_eq_div]

/-- Overwriting the entries holding key `i` does not change the key
list of an association list. -/
theorem replace_keys (l : List (Nat × Nat)) (i p : Nat) :
    (l.map (fun kv => if kv.1 == i then (i, p) else kv)).map Prod.fst = l.map Prod.fst := by
  induction l with
  | nil => rfl
  | cons kv t ih =>
      simp only [List.map_cons, ih]
      by_cases hk : kv.1 = i
      · simp [hk]
      · simp [hk]

/-- A successful lookup means the key occurs in the key list. -/
theorem mem_keys_of_lookup_isSome (l : List (Nat × Nat)) (i : Nat)
    (h : (l.lookup i).isSome) : i ∈ l.map Prod.fst := by
  induction l with
  | nil => simp [List.lookup] at h
  | cons kv t ih =>
      by_cases hk : kv.1 = i
      · simp [hk]
      · have hb : (i == kv.1) = false := beq_eq_false_iff_ne.mpr (fun hh => hk hh.symm)
        simp only [List.lookup, hb] at h
        simp only [List.map_cons]
        exact List.mem_cons_of_mem _ (ih h)

/-- `Map.set` makes the written key present and keeps all present keys. -/
theorem mem_keys_setResult (l : List (Nat × Nat)) (i j p : Nat)
    (h : j ∈ l.map Prod.fst ∨ j = i) :
    j ∈ (setResult l i p).map Prod.fst := by
  unfold setResult
  by_cases hp : (l.lookup i).isSome
  · simp only [hp, if_true]
    rw [replace_keys]
    rcases h with h | rfl
    · exact h
    · exact mem_keys_of_lookup_isSome l j hp
  · simp only [hp, if_false, Bool.false_eq_true]
    rw [List.map_append]
    rcases h with h | rfl
    · exact List.mem_append_left _ h
    · apply List.mem_append_right
      simp

/-- Processing one batch records a result for every id of the batch and
keeps every previously recorded id. -/
theorem processBatch_keys (fetch : Nat → FetchOutcome) (now : Nat) :
    ∀ (batch : List Nat) (acc : List (Nat × Nat) × DataSource) (j : Nat),
      j ∈ acc.1.map Prod.fst ∨ j ∈ batch →
      j ∈ ((processBatch fetch now batch acc).1).map Prod.fst := by
  intro batch
  induction batch with
  | nil =>
      intro acc j h
      rcases h with h | h
      · simpa [processBatch] using h
      · simp at h
  | cons c rest ih =>
      intro acc j h
      obtain ⟨results, ds⟩ := acc
      simp only [processBatch]
      apply ih
      rcases h with h | h
      · left
        exact mem_keys_setResult _ _ _ _ (Or.inl h)
      · rcases List.mem_cons.mp h with rfl | h
        · left
          exact mem_keys_setResult _ _ _ _ (Or.inr rfl)
        · right
          exact h

/-- Folding the batch list of `createBatches` over `processBatch` records
a result for every id of the original list. -/
theorem foldl_batches_covers (fetch : Nat → FetchOutcome) (now : Nat) (n : Nat)
    (hn : n ≠ 0) :
    ∀ (N : Nat) (l : List Nat), l.length ≤ N →
      ∀ (acc : List (Nat × Nat) × DataSource) (j : Nat),
        j ∈ l ∨ j ∈ acc.1.map Prod.fst →
        j ∈ (((createBatches l n).foldl (fun a b => processBatch fetch now b a) acc).1).map
          Prod.fst := by
  intro N
  induction N with
  | zero =>
      intro l hl acc j h
      have hnil : l = [] := List.length_eq_zero.mp (Nat.le_zero.mp hl)
      subst hnil
      rcases h with h | h
      · simp at h
      · rw [createBatches]
        simpa [hn] using h
  | succ N ihN =>
      intro l hl acc j h
      cases l with
      | nil =>
          rcases h with h | h
          · simp at h
          · rw [createBatches]
            simpa [hn] using h
      | cons x xs =>
          rw [createBatches]
          simp only [hn, dite_false, dif_neg, not_false_eq_true]
          rw [List.foldl_cons]
          apply ihN ((x :: xs).drop n)
          · simp only [List.length_drop, List.length_cons]
            simp only [List.length_cons] at hl
            omega
          rcases h with h | h
          · rw [← List.take_append_drop n (x :: xs)] at h
            rcases List.mem_append.mp h with h | h
            · right
              exact processBatch_keys fetch now _ acc j (Or.inr h)
            · left
              exact h
          · right
            exact processBatch_keys fetch now _ acc j (Or.inl h)

/-! Claim theorems. -/

/-- Claim C1 (refuted by the code): `optimizeSquad` is supposed to
assign pairwise-distinct candidate ids, but it never excludes
already-assigned candidates, so a pool whose only centre-back has id 7
gets that candidate assigned to *both* CB slots of the fixed formation,
the empty requirement list validates the squad, and the duplicated
assignment is returned as a success. -/
theorem optimizeSquad_duplicate_candidate :
    ∃ s : OptimizedSquad, optimizeSquad [soloDefender] [] = some s
      ∧ (s.players.map Player.id) = [7, 7]
      ∧ ¬ (s.players.map Player.id).Nodup :=
  ⟨⟨[soloDefender, soloDefender], 200⟩, by decide, by decide, by decide⟩

/-- Claim C2 (refuted by the code): the orchestrator loop never removes
assigned ids from the shared pool (there is no exclusion set and no
`allowDuplicatesAcrossSegments` flag anywhere), so two consecutive
segments solved over the same two-player pool both consume candidate
ids 1 and 2 - the consumed-id sets of distinct segments are identical
rather than disjoint. -/
theorem segments_reuse_shared_pool_ids :
    ((runSegments sharedDS 0 (fun _ => .notFound) [segOne, segTwo]).1.map
      (fun e => e.cheapestPlayers.map Player.id)) = [[1, 2], [1, 2]] := by
  decide

/-- Claim C3 (refuted by the code): there is no reshuffle/retry loop and
no `maxAttempts`.  `optimizeSquad` performs exactly one greedy
assignment pass; when validation fails it calls the unimplemented
`advancedOptimization` placeholder, which returns `null` unconditionally.
Here the single greedy pass builds a squad of mean rating 80, the
`minTeamRating 90` requirement fails, and the solve returns `none`
immediately instead of re-attempting up to 8 reshuffled orderings. -/
theorem optimizeSquad_single_attempt_returns_none :
    optimizeSquad [lowRatedDefender] strictRequirements = none := by
  have hgreedy : formationPositions.foldl (optimizeSlot [lowRatedDefender]) ([], 0)
      = ([lowRatedDefender, lowRatedDefender], 300) := by decide
  have hrate : calculateSquadRating [lowRatedDefender, lowRatedDefender] = 80 := by
    rw [squadRating_closed_form _ (by simp)]
    decide
  have hval : validateSquad [lowRatedDefender, lowRatedDefender] strictRequirements = false := by
    simp [validateSquad, strictRequirements, squadMeetsRequirement, hrate]
  simp [optimizeSquad, hgreedy, hval, advancedOptimization]

/-- Claim C4 (refuted by the code): a pool with a single eligible player
and `playersNeeded = 11` yields a result with one assigned player and no
failure marker of any kind - `getCheapestSquadForSegment` simply slices
whatever is available, so a "successful" segment result can have fewer
assignments than requested slots. -/
theorem short_pool_returns_partial_squad_as_success :
    ((getCheapestSquadForSegment lonePoolDS 0 (fun _ => .notFound)
        elevenSlotCriteria).1).players.length = 1
    ∧ playersNeededOf elevenSlotCriteria = 11 := by
  decide

/-- Claim C5 (confirmed): for every data-source state, fetch oracle and
requirement set, the `totalCost` reported by `solveSBCSegment` equals
the sum of the `price` fields of exactly the candidates assigned in the
result, taken at assignment time. -/
theorem totalCost_eq_sum_of_assigned_prices :
    ∀ (ds : DataSource) (now : Nat) (fetch : Nat → FetchOutcome)
      (name : String) (reqs : Criteria),
      ((solveSBCSegment ds now fetch name reqs).1).totalCost
        = (((solveSBCSegment ds now fetch name reqs).1).cheapestPlayers.map Player.price).sum := by
  intro ds now fetch name reqs
  simp only [solveSBCSegment, getCheapestSquadForSegment]
  by_cases h : (findPlayersByCriteria ds
      { reqs with needsFreshPrices := reqs.priority == "high" }).isEmpty
  · simp [h]
  · simp [h, foldl_price_sum]

/-- Claim C6 (confirmed): when the solver throws on one segment, the
orchestrator records the fallback entry in exactly that segment's slot,
still solves every other segment (those before and after are unchanged),
and the returned list has one entry per declared segment - the solve is
never aborted. -/
theorem segment_failure_recorded_and_solve_continues :
    ∀ (solver : SegmentDef → Except String SegmentSolution)
      (pre post : List SegmentDef) (seg : SegmentDef) (e : String),
      solver seg = .error e →
      solveSegmentsLoop solver (pre ++ seg :: post)
        = solveSegmentsLoop solver pre ++ errorEntry seg.name :: solveSegmentsLoop solver post
      ∧ (solveSegmentsLoop solver (pre ++ seg :: post)).length = (pre ++ seg :: post).length := by
  intro solver pre post seg e he
  constructor
  · simp [solveSegmentsLoop, he]
  · simp [solveSegmentsLoop]

/-- Witness for C6 at a concrete failing solver and segment list. -/
theorem segment_failure_recorded_and_solve_continues_witness :
    solveSegmentsLoop failingSolver ([segGood] ++ segBad :: [segGood])
      = solveSegmentsLoop failingSolver [segGood] ++ errorEntry segBad.name ::
          solveSegmentsLoop failingSolver [segGood]
    ∧ (solveSegmentsLoop failingSolver ([segGood] ++ segBad :: [segGood])).length
        = ([segGood] ++ segBad :: [segGood]).length :=
  segment_failure_recorded_and_solve_continues failingSolver [segGood] [segGood] segBad "boom"
    rfl

/-- Claim C7 (confirmed): a price-source failure is recovered locally -
when the cache cannot serve the id, a failing fetch returns the
last-known stored price (or 0) with the state unchanged, and the batch
refresh records a result entry for every requested id, so one failing
id never aborts the rest of the batch; both functions are total and
never propagate the price-source error. -/
theorem price_source_failure_recovered_locally :
    (∀ (ds : DataSource) (now cardId : Nat) (msg : String),
        (getCachedPrice ds now (priceKey cardId)).getD 0 = 0 →
        getPlayerPriceFromAPI ds now (.networkError msg) cardId = (fallbackPrice ds cardId, ds))
    ∧ (∀ (ds : DataSource) (now : Nat) (fetch : Nat → FetchOutcome)
        (cardIds : List Nat) (maxConcurrent cardId : Nat),
        maxConcurrent ≠ 0 → cardId ∈ cardIds →
        cardId ∈ ((updatePricesForPlayers ds now fetch cardIds maxConcurrent).1).map Prod.fst) := by
  constructor
  · intro ds now cardId msg hzero
    cases hcache : getCachedPrice ds now (priceKey cardId) with
    | some c =>
        rw [hcache] at hzero
        simp at hzero
        simp [getPlayerPriceFromAPI, hcache, hzero]
    | none => simp [getPlayerPriceFromAPI, hcache]
  · intro ds now fetch cardIds maxConcurrent cardId hn hmem
    unfold updatePricesForPlayers
    exact foldl_batches_covers fetch now maxConcurrent hn cardIds.length cardIds le_rfl
      ([], ds) cardId (Or.inl hmem)

/-- Witness for C7: with an always-failing price source, the single
fetch for id 11 returns its stored fallback, and the three-id batch at
concurrency 2 still records an entry for id 12. -/
theorem price_source_failure_recovered_locally_witness :
    getPlayerPriceFromAPI priceFailDS 0 (.networkError "timeout") 11
      = (fallbackPrice priceFailDS 11, priceFailDS)
    ∧ 12 ∈ ((updatePricesForPlayers priceFailDS 0 (fun _ => .networkError "timeout")
        [11, 12, 13] 2).1).map Prod.fst :=
  ⟨price_source_failure_recovered_locally.1 priceFailDS 0 11 "timeout" (by decide),
   price_source_failure_recovered_locally.2 priceFailDS 0 (fun _ => .networkError "timeout")
     [11, 12, 13] 2 12 (by decide) (by decide)⟩

/-- Claim C8, counterexample: the chemistry estimate does *not* weight a
repeated league more than a repeated nation.  A pair sharing only their
nation scores 12 while a pair sharing only their league scores 10,
because the code counts a shared nation (like a shared club) as a
strong link worth 2 and a shared league as a weak link worth 1. -/
theorem nation_repeat_outweighs_league_repeat :
    calculateChemistry [chemNationA, chemNationB] = 12
    ∧ calculateChemistry [chemLeagueA, chemLeagueB] = 10
    ∧ calculateChemistry [chemNationA, chemNationB]
        > calculateChemistry [chemLeagueA, chemLeagueB] := by
  decide

/-- Claim C8, amended: the chemistry estimate is a deterministic
weighted sum of repeated-group contributions in which a repeated club
and a repeated nation each count as a strong link (weight 2, on a base
of 4 per player) and a repeated league as a weak link (weight 1): for
any two distinct-id players, the squad chemistry is 12 when they share
a nation or club, 10 when they share only a league, and 8 otherwise. -/
theorem two_player_chemistry_weights :
    ∀ p q : Player, p.id ≠ q.id →
      calculateChemistry [p, q] =
        (if p.nation = q.nation ∨ p.club = q.club then 12
         else if p.league = q.league then 10 else 8) := by
  intro p q h
  have h' : ¬ q.id = p.id := fun hq => h hq.symm
  have h2 : ¬ p.id = q.id := h
  by_cases hs : p.nation = q.nation ∨ p.club = q.club
  · have hs' : q.nation = p.nation ∨ q.club = p.club := hs.imp Eq.symm Eq.symm
    have hLp : getPlayerLinks p [p, q] = ⟨1, 0⟩ := by
      simp [getPlayerLinks, h', hs]
    have hLq : getPlayerLinks q [p, q] = ⟨1, 0⟩ := by
      simp [getPlayerLinks, h2, hs']
    have hp1 : calculatePlayerChemistry p [p, q] = 6 := by
      rw [calculatePlayerChemistry, hLp]
      decide
    have hq1 : calculatePlayerChemistry q [p, q] = 6 := by
      rw [calculatePlayerChemistry, hLq]
      decide
    rw [calculateChemistry, if_pos hs]
    simp only [List.foldl_cons, List.foldl_nil, hp1, hq1]
    decide
  · have hs' : ¬ (q.nation = p.nation ∨ q.club = p.club) := fun c => hs (c.imp Eq.symm Eq.symm)
    by_cases hl : p.league = q.league
    · have hl' : q.league = p.league := hl.symm
      have hLp : getPlayerLinks p [p, q] = ⟨0, 1⟩ := by
        simp [getPlayerLinks, h', hs, hl]
      have hLq : getPlayerLinks q [p, q] = ⟨0, 1⟩ := by
        simp [getPlayerLinks, h2, hs', hl']
      have hp1 : calculatePlayerChemistry p [p, q] = 5 := by
        rw [calculatePlayerChemistry, hLp]
        decide
      have hq1 : calculatePlayerChemistry q [p, q] = 5 := by
        rw [calculatePlayerChemistry, hLq]
        decide
      rw [calculateChemistry, if_neg hs, if_pos hl]
      simp only [List.foldl_cons, List.foldl_nil, hp1, hq1]
      decide
    · have hl' : ¬ q.league = p.league := fun c => hl c.symm
      have hLp : getPlayerLinks p [p, q] = ⟨0, 0⟩ := by
        simp [getPlayerLinks, h', hs, hl]
      have hLq : getPlayerLinks q [p, q] = ⟨0, 0⟩ := by
        simp [getPlayerLinks, h2, hs', hl']
      have hp1 : calculatePlayerChemistry p [p, q] = 4 := by
        rw [calculatePlayerChemistry, hLp]
        decide
      have hq1 : calculatePlayerChemistry q [p, q] = 4 := by
        rw [calculatePlayerChemistry, hLq]
        decide
      rw [calculateChemistry, if_neg hs, if_neg hl]
      simp only [List.foldl_cons, List.foldl_nil, hp1, hq1]
      decide

/-- Witness for the amended C8 at the concrete same-nation pair. -/
theorem two_player_chemistry_weights_witness :
    calculateChemistry [chemNationA, chemNationB] =
      (if chemNationA.nation = chemNationB.nation ∨ chemNationA.club = chemNationB.club then 12
       else if chemNationA.league = chemNationB.league then 10 else 8) :=
  two_player_chemistry_weights chemNationA chemNationB (by decide)

/-- Claim C9 (confirmed): `calculateSquadRating` is total - the division
is guarded by the emptiness check, the empty squad maps to 0, and every
non-empty squad maps to the half-up-rounded arithmetic mean of the
ratings, here in its executable integer form. -/
theorem calculateSquadRating_total_and_rounded_mean :
    calculateSquadRating [] = 0 ∧
    ∀ squad : List Player, squad ≠ [] →
      calculateSquadRating squad
        = ((2 * (squad.map Player.rating).sum + squad.length) / (2 * squad.length) : ℕ) :=
  ⟨by simp [calculateSquadRating], fun squad h => squadRating_closed_form squad h⟩

/-- Witness for C9: the mean of ratings 83 and 84 rounds half-up to 84. -/
theorem calculateSquadRating_total_and_rounded_mean_witness :
    calculateSquadRating [ratingP83, ratingP84]
      = ((2 * (([ratingP83, ratingP84].map Player.rating).sum)
            + ([ratingP83, ratingP84] : List Player).length)
          / (2 * ([ratingP83, ratingP84] : List Player).length) : ℕ) :=
  calculateSquadRating_total_and_rounded_mean.2 [ratingP83, ratingP84] (by decide)

/-- Claim C10 (confirmed): a cached price of 0 is never served - when the
cache entry for the id is absent, expired, or stores 0, a fresh fetch is
performed and its extracted value is returned (and cached); and only a
strictly positive cached price is returned without consulting the fetch
oracle at all, with the state unchanged. -/
theorem cached_zero_treated_as_miss :
    (∀ (ds : DataSource) (now cardId : Nat) (d : PriceData),
        (getCachedPrice ds now (priceKey cardId)).getD 0 = 0 →
        (getPlayerPriceFromAPI ds now (.ok d) cardId).1 = extractPriceFromResponse d)
    ∧ (∀ (ds : DataSource) (now cardId p : Nat) (fetch : FetchOutcome),
        getCachedPrice ds now (priceKey cardId) = some p → p ≠ 0 →
        getPlayerPriceFromAPI ds now fetch cardId = (p, ds)) := by
  constructor
  · intro ds now cardId d hzero
    cases hcache : getCachedPrice ds now (priceKey cardId) with
    | some c =>
        rw [hcache] at hzero
        simp at hzero
        simp [getPlayerPriceFromAPI, hcache, hzero]
    | none => simp [getPlayerPriceFromAPI, hcache]
  · intro ds now cardId p fetch hcache hp
    simp [getPlayerPriceFromAPI, hcache, hp]

/-- Witness for C10: id 5 has a fresh cache entry storing 0, so the
fetched 450 is served; id 6 has a fresh positive entry, so 777 is
served without fetching even though the oracle would fail. -/
theorem cached_zero_treated_as_miss_witness :
    (getPlayerPriceFromAPI zeroCachedDS 0 (.ok okResponse) 5).1 = extractPriceFromResponse okResponse
    ∧ getPlayerPriceFromAPI zeroCachedDS 0 (.networkError "down") 6 = (777, zeroCachedDS) :=
  ⟨cached_zero_treated_as_miss.1 zeroCachedDS 0 5 okResponse (by decide),
   cached_zero_treated_as_miss.2 zeroCachedDS 0 6 777 (.networkError "down") (by decide) (by decide)⟩
